import Mathlib

/-! ghostmux: layout strategies, config validation and window orchestration.

A shallow embedding of `internal/layout/layout.go`, `internal/config/config.go`
and `internal/driver/ghostty/ghostty.go`.

* Go `int` values are `Int`; `/` and `%` are the truncating `Int.tdiv` and
  `Int.tmod`.  No operation of the embedded code can overflow.
* Go `error` results are `Option String`: `none` is `nil`, `some msg` is an
  error with message `msg`.
* The AppleScript backend (`d.as`) is the boundary of the embedding: every
  method call on it is recorded in a trace, and its outcome is supplied by a
  `Backend` oracle.
-/

namespace Ghostmux

/-! ## internal/layout/layout.go -/

namespace layout

/-- The four implementations of the `Strategy` interface. -/
inductive Strategy where
  | tiledStrategy (totalPanes : Int)
  | evenHorizontalStrategy
  | evenVerticalStrategy
  | alternatingStrategy
  deriving DecidableEq, Repr

/-- Go `NewStrategy`: a `switch` on the layout string with a `default` arm. -/
def NewStrategy (layoutType : String) (totalPanes : Int) : Strategy :=
  if layoutType = "tiled" then .tiledStrategy totalPanes
  else if layoutType = "even-horizontal" then .evenHorizontalStrategy
  else if layoutType = "even-vertical" then .evenVerticalStrategy
  else .alternatingStrategy

/-- Go `NextSplit`, one arm per receiver type. -/
def Strategy.NextSplit : Strategy → Int → String
  | .alternatingStrategy, index =>
      if index.tmod 2 = 0 then "vertical" else "horizontal"
  | .evenHorizontalStrategy, _ => "horizontal"
  | .evenVerticalStrategy, _ => "vertical"
  | .tiledStrategy totalPanes, index =>
      if index ≤ totalPanes.tdiv 2 then "vertical" else "horizontal"

end layout

/-! ## internal/config/config.go -/

namespace config

/-- Go `PaneConfig`. -/
structure PaneConfig where
  Commands : List String
  Focus : Bool
  Root : String
  deriving DecidableEq, Repr

/-- Go `PaneEntry`: the dynamic type of the `raw interface{}` field is `nil`
(zero value), `string` or `PaneConfig`. -/
inductive PaneEntry where
  | rawNil
  | rawString (v : String)
  | rawConfig (v : PaneConfig)
  deriving DecidableEq, Repr

/-- Go `WindowConfig`. -/
structure WindowConfig where
  Name : String
  Root : String
  Layout : String
  Panes : List PaneEntry
  deriving DecidableEq, Repr

/-- Go `Config`. -/
structure Config where
  Windows : List WindowConfig
  deriving DecidableEq, Repr

/-- Go `(*PaneEntry).Commands`. -/
def PaneEntry.Commands : PaneEntry → List String
  | .rawString v => [v]
  | .rawConfig v => v.Commands
  | .rawNil => []

/-- Go `(*PaneEntry).GetRoot`. -/
def PaneEntry.GetRoot : PaneEntry → String
  | .rawConfig cfg => cfg.Root
  | _ => ""

/-- Go `(*PaneEntry).ShouldFocus`. -/
def PaneEntry.ShouldFocus : PaneEntry → Bool
  | .rawConfig cfg => cfg.Focus
  | _ => false

/-- The `validLayouts` map literal of `Validate`; a missing key reads `false`. -/
def validLayouts (key : String) : Bool :=
  key == "tiled" || key == "even-horizontal" || key == "even-vertical" ||
    key == "alternating"

/-- The body of the `for i, window := range c.Windows` loop of `Validate`,
started at index `i` on the remaining windows. -/
def validateWindows : Nat → List WindowConfig → Option String
  | _, [] => none
  | i, window :: rest =>
      if window.Name = "" then
        some ("window " ++ toString i ++ ": missing name")
      else if window.Panes.length = 0 then
        some ("window \x27" ++ window.Name ++ "\x27: must have at least one pane")
      else if window.Layout ≠ "" ∧ validLayouts window.Layout = false then
        some ("window \x27" ++ window.Name ++ "\x27: invalid layout \x27" ++
          window.Layout ++ "\x27")
      else validateWindows (i + 1) rest

/-- Go `(*Config).Validate`. -/
def Config.Validate (c : Config) : Option String :=
  if c.Windows.length = 0 then
    some "config must have at least one window"
  else validateWindows 0 c.Windows

end config

/-! ## internal/driver/ghostty/ghostty.go -/

namespace ghostty

open layout config

/-- One method call on the AppleScript backend `d.as` made by `CreateWindow`. -/
inductive Call where
  | typeText (text : String)
  | splitHorizontal
  | splitVertical
  | gotoPreviousSplit
  | gotoNextSplit
  | activateGhostty
  deriving DecidableEq, Repr

/-- The backend as an oracle: `as n c` is the `error` returned by the call `c`
when `n` calls have been issued before it (`none` is `nil`). -/
abbrev Backend := Nat → Call → Option String

/-- The backend on which no call ever fails. -/
def Backend.noFail : Backend := fun _ _ => none

/-- A statement block of `CreateWindow`: from the calls issued so far to the
pending `return err` (if any) and the calls issued afterwards. -/
abbrev Stmt := List Call → Option String × List Call

/-- Falling through without a call. -/
def Stmt.skip : Stmt := fun issued => (none, issued)

/-- The call `d.as.c()`: it is appended to the trace, its result is the oracle's. -/
def Stmt.invoke (as : Backend) (c : Call) : Stmt :=
  fun issued => (as issued.length c, issued ++ [c])

/-- Sequencing with `if err != nil { return ... }`: `b` runs only if `a`
left no error. -/
def Stmt.andThen (a b : Stmt) : Stmt := fun issued =>
  match a issued with
  | (some err, issued1) => (some err, issued1)
  | (none, issued1) => b issued1

/-- The wrapper `fmt.Errorf(pre + "%w", err)` around a failing call. -/
def Stmt.wrapErr (pre : String) (a : Stmt) : Stmt := fun issued =>
  match a issued with
  | (some err, issued1) => (some (pre ++ err), issued1)
  | (none, issued1) => (none, issued1)

/-- The loop `for i := lo; i < hi; i++ { body }`, given its start `lo` and
its number of iterations `hi - lo`. -/
def Stmt.forUp (body : Nat → Stmt) : Nat → Nat → Stmt
  | _, 0 => Stmt.skip
  | i, n + 1 => (body i).andThen (Stmt.forUp body (i + 1) n)

/-- The loop `for j := n; j > 0; j-- { body }` (the body does not read `j`). -/
def Stmt.forDown (body : Stmt) : Nat → Stmt
  | 0 => Stmt.skip
  | j + 1 => body.andThen (Stmt.forDown body j)

/-- The loop `for _, x := range xs { body }`. -/
def Stmt.forEach {α : Type} (body : α → Stmt) : List α → Stmt
  | [] => Stmt.skip
  | x :: xs => (body x).andThen (Stmt.forEach body xs)

/-- Lines 40-53: the window-level root change. -/
def rootChange (as : Backend) (window : WindowConfig) : Stmt :=
  if window.Root ≠ "" then
    (Stmt.invoke as (.typeText ("cd " ++ window.Root))).andThen
      (Stmt.invoke as (.typeText "clear"))
  else Stmt.skip

/-- Lines 58-72: the body of the split loop for pane index `i`. -/
def splitBody (as : Backend) (layoutStrategy : layout.Strategy) (i : Nat) : Stmt :=
  let direction := layoutStrategy.NextSplit (i : Int)
  if direction = "horizontal" then
    Stmt.wrapErr "splitting horizontally: " (Stmt.invoke as .splitHorizontal)
  else
    Stmt.wrapErr "splitting vertically: " (Stmt.invoke as .splitVertical)

/-- Lines 104-107: the effective root of a pane. -/
def paneRoot (window : WindowConfig) (pane : PaneEntry) : String :=
  if pane.GetRoot = "" then window.Root else pane.GetRoot

/-- Lines 87-127: the body of the dispatch loop for pane index `i`.  The index
expression `window.Panes[i]` is in range for every `i` the loop reaches. -/
def dispatchBody (as : Backend) (window : WindowConfig) (i : Nat) : Stmt :=
  (if i > 0 then
      (Stmt.invoke as .activateGhostty).andThen (Stmt.invoke as .gotoNextSplit)
    else Stmt.skip).andThen <|
  let pane := window.Panes.getD i PaneEntry.rawNil
  (if paneRoot window pane ≠ "" ∧ i ≠ 0 then
      Stmt.invoke as (.typeText ("cd " ++ paneRoot window pane))
    else Stmt.skip).andThen <|
  Stmt.forEach (fun cmd => Stmt.invoke as (.typeText cmd)) pane.Commands

/-- Go `(*Driver).CreateWindow`: the returned error and the backend calls
issued, in order.  Debug printing and `time.Sleep` have no effect on either. -/
def CreateWindow (as : Backend) (window : WindowConfig) : Option String × List Call :=
  let layoutStrategy := layout.NewStrategy window.Layout (window.Panes.length : Int)
  ((rootChange as window).andThen <|
    (Stmt.forUp (splitBody as layoutStrategy) 1 (window.Panes.length - 1)).andThen <|
    (Stmt.forDown (Stmt.invoke as .gotoPreviousSplit) (window.Panes.length - 1)).andThen <|
    Stmt.forUp (dispatchBody as window) 0 window.Panes.length) []

end ghostty

/-! ## The focused pane

The backend has no absolute addressing; which pane a call acts on is the
position of a focus cursor over the panes in creation order. -/

/-- The focus cursor and the number of panes.  The cursor is an `Int` so that
stepping before pane 0 is visible. -/
structure Focus where
  cursor : Int
  count : Nat
  deriving DecidableEq, Repr

/-- One pane, focused. -/
def Focus.init : Focus := ⟨0, 1⟩

/-- Effect of a call on the focus: a split creates pane `count` and focuses
it, navigate-previous and navigate-next move the cursor by one, the other calls
leave it in place. -/
def Focus.step (f : Focus) : ghostty.Call → Focus
  | .splitHorizontal => ⟨f.count, f.count + 1⟩
  | .splitVertical => ⟨f.count, f.count + 1⟩
  | .gotoPreviousSplit => ⟨f.cursor - 1, f.count⟩
  | .gotoNextSplit => ⟨f.cursor + 1, f.count⟩
  | .typeText _ => f
  | .activateGhostty => f

/-- Focus after a sequence of calls. -/
def Focus.after (f : Focus) (calls : List ghostty.Call) : Focus :=
  calls.foldl Focus.step f

/-- Each call paired with the cursor position once it has taken effect (for
`typeText` this is the pane that receives the text). -/
def focusLog : Focus → List ghostty.Call → List (Int × ghostty.Call)
  | _, [] => []
  | f, c :: rest => ((f.step c).cursor, c) :: focusLog (f.step c) rest

/-! ## Straight-line plans

`CreateWindow` has no data-dependent control flow apart from the early
returns, so it is the execution of a fixed list of calls up to the first
failure.  The list is computed here; `CreateWindow_eq_runPlan` proves the
two agree on every backend. -/

/-- A planned call with the prefix its error is wrapped in, if any. -/
abbrev PlanStep := ghostty.Call × Option String

/-- The error `CreateWindow` returns when a planned call fails with `err`. -/
def PlanStep.wrap (p : PlanStep) (err : String) : String :=
  match p.2 with
  | none => err
  | some pre => pre ++ err

/-- Issue the planned calls in order, stopping at the first failure. -/
def runPlan (as : ghostty.Backend) : List PlanStep → ghostty.Stmt
  | [] => ghostty.Stmt.skip
  | p :: rest => fun issued =>
      match as issued.length p.1 with
      | some err => (some (p.wrap err), issued ++ [p.1])
      | none => runPlan as rest (issued ++ [p.1])

/-- The split call for pane index `k`, with its error prefix. -/
def splitStep (window : config.WindowConfig) (k : Nat) : PlanStep :=
  if (layout.NewStrategy window.Layout (window.Panes.length : Int)).NextSplit (k : Int)
      = "horizontal" then
    (.splitHorizontal, some "splitting horizontally: ")
  else (.splitVertical, some "splitting vertically: ")

/-- The calls of the window-level root change. -/
def rootCalls (window : config.WindowConfig) : List ghostty.Call :=
  if window.Root ≠ "" then [.typeText ("cd " ++ window.Root), .typeText "clear"] else []

/-- The navigation that precedes the dispatch of pane `i`. -/
def navCalls (i : Nat) : List ghostty.Call :=
  if i > 0 then [.activateGhostty, .gotoNextSplit] else []

/-- The texts sent to pane `i`: its `cd`, if any, then its commands. -/
def paneTexts (window : config.WindowConfig) (i : Nat) : List String :=
  (if ghostty.paneRoot window (window.Panes.getD i .rawNil) ≠ "" ∧ i ≠ 0 then
      ["cd " ++ ghostty.paneRoot window (window.Panes.getD i .rawNil)]
    else []) ++ (window.Panes.getD i .rawNil).Commands

/-- The calls of the dispatch of pane `i`. -/
def paneCalls (window : config.WindowConfig) (i : Nat) : List ghostty.Call :=
  navCalls i ++ (paneTexts window i).map .typeText

/-- The calls of a run of `CreateWindow` in which no call fails. -/
def windowCalls (window : config.WindowConfig) : List ghostty.Call :=
  rootCalls window
    ++ (List.range' 1 (window.Panes.length - 1)).map (fun k => (splitStep window k).1)
    ++ List.replicate (window.Panes.length - 1) .gotoPreviousSplit
    ++ (List.range window.Panes.length).flatMap (paneCalls window)

/-- The plan of `CreateWindow`: `windowCalls` with the error prefixes. -/
def windowPlan (window : config.WindowConfig) : List PlanStep :=
  (rootCalls window).map (fun c => (c, none))
    ++ (List.range' 1 (window.Panes.length - 1)).map (splitStep window)
    ++ List.replicate (window.Panes.length - 1) (.gotoPreviousSplit, none)
    ++ ((List.range window.Panes.length).flatMap (paneCalls window)).map (fun c => (c, none))

/-- The error prefix of a planned call is determined by the call. -/
def prefixOf : ghostty.Call → Option String
  | .splitHorizontal => some "splitting horizontally: "
  | .splitVertical => some "splitting vertically: "
  | _ => none

/-- Whether a call is one of the two split calls. -/
def ghostty.Call.isSplit : ghostty.Call → Bool
  | .splitHorizontal => true
  | .splitVertical => true
  | _ => false

/-- Whether a call is a `typeText` call. -/
def ghostty.Call.isText : ghostty.Call → Bool
  | .typeText _ => true
  | _ => false

/-- The backend whose call number `k` (counted from 0) fails with `err` and
on which every other call succeeds. -/
def ghostty.Backend.failingAt (k : Nat) (err : String) : ghostty.Backend :=
  fun n _ => if n = k then some err else none

/-- The window of the end-to-end scenario. -/
def devWindow : config.WindowConfig :=
  { Name := "dev", Root := "", Layout := "alternating",
    Panes := [.rawString "ls", .rawString "top", .rawString "code ."] }

/-- Three panes split the same way. -/
def rowWindow : config.WindowConfig :=
  { Name := "row", Root := "", Layout := "even-horizontal",
    Panes := [.rawString "a", .rawString "b", .rawString "c"] }

/-- A window whose last pane has a root of its own and no command. -/
def trailingRootWindow : config.WindowConfig :=
  { Name := "w", Root := "", Layout := "",
    Panes := [.rawString "ls", .rawConfig { Commands := [], Focus := false, Root := "/tmp" }] }

/-- A single pane in a window with a root. -/
def soloWindow : config.WindowConfig :=
  { Name := "solo", Root := "/src", Layout := "tiled", Panes := [.rawString "make"] }

/-- A window with a root, a pane with a root of its own, and a pane without
commands. -/
def rootedWindow : config.WindowConfig :=
  { Name := "api", Root := "/src", Layout := "tiled",
    Panes := [.rawConfig { Commands := ["vim"], Focus := true, Root := "/etc" },
              .rawConfig { Commands := ["make", "make test"], Focus := false, Root := "/tmp" },
              .rawNil] }

/-- The focus log of the dispatch of pane `i`: the navigation for `i > 0`,
then the texts of the pane, each with the cursor on pane `i`. -/
def paneLog (window : config.WindowConfig) (i : Nat) : List (Int × ghostty.Call) :=
  (if i > 0 then [((i : Int) - 1, .activateGhostty), ((i : Int), .gotoNextSplit)] else [])
    ++ (paneTexts window i).map (fun t => ((i : Int), ghostty.Call.typeText t))

/-- A window without a root: a pane with a command, a pane with a root of its
own and no command, and an empty pane. -/
def mixedTailWindow : config.WindowConfig :=
  { Name := "w", Root := "", Layout := "even-vertical",
    Panes := [.rawString "ls",
              .rawConfig { Commands := [], Focus := false, Root := "/tmp" },
              .rawNil] }

open layout config ghostty

/-! ## Layout strategy -/

theorem validLayouts_eq_true (s : String) :
    validLayouts s = true ↔
      s = "tiled" ∨ s = "even-horizontal" ∨ s = "even-vertical" ∨ s = "alternating" := by
  simp [validLayouts, or_assoc]

theorem validateWindows_isSome (ws : List WindowConfig) (i : Nat) :
    (validateWindows i ws).isSome = true ↔
      ∃ w ∈ ws, w.Name = "" ∨ w.Panes.length = 0 ∨
        (w.Layout ≠ "" ∧ validLayouts w.Layout = false) := by
  induction ws generalizing i with
  | nil => simp [validateWindows]
  | cons w rest ih =>
    have hmem : ∀ P : WindowConfig → Prop, (∃ x ∈ w :: rest, P x) ↔ (P w ∨ ∃ x ∈ rest, P x) := by
      intro P
      simp
    rw [hmem]
    unfold validateWindows
    by_cases h1 : w.Name = ""
    · rw [if_pos h1]
      exact ⟨fun _ => Or.inl (Or.inl h1), fun _ => rfl⟩
    rw [if_neg h1]
    by_cases h2 : w.Panes.length = 0
    · rw [if_pos h2]
      exact ⟨fun _ => Or.inl (Or.inr (Or.inl h2)), fun _ => rfl⟩
    rw [if_neg h2]
    by_cases h3 : w.Layout ≠ "" ∧ validLayouts w.Layout = false
    · rw [if_pos h3]
      exact ⟨fun _ => Or.inl (Or.inr (Or.inr h3)), fun _ => rfl⟩
    rw [if_neg h3, ih]
    constructor
    · exact fun h => Or.inr h
    · rintro (hp | h)
      · rcases hp with hp | hp | hp
        · exact absurd hp h1
        · exact absurd hp h2
        · exact absurd hp h3
      · exact h

/-- C3: `NewStrategy(kind, N).NextSplit(i)` follows the policy table, for
every kind, `N` and `i`: "horizontal" for "even-horizontal"; "vertical" for
"even-vertical"; for "tiled", "vertical" if `i <= N/2` (truncating division)
and "horizontal" otherwise, so that for `N = 5` indices 1, 2 are vertical and
3, 4 horizontal; for every other kind ("alternating", the empty string, any
unknown string), "vertical" if `i` is even and "horizontal" otherwise. -/
theorem NextSplit_policy_table (kind : String) (N i : Int) :
    (NewStrategy kind N).NextSplit i
        = (if kind = "even-horizontal" then "horizontal"
           else if kind = "even-vertical" then "vertical"
           else if kind = "tiled" then
             (if i ≤ N.tdiv 2 then "vertical" else "horizontal")
           else (if Even i then "vertical" else "horizontal")) ∧
    ((NewStrategy "tiled" 5).NextSplit 1 = "vertical" ∧
      (NewStrategy "tiled" 5).NextSplit 2 = "vertical" ∧
      (NewStrategy "tiled" 5).NextSplit 3 = "horizontal" ∧
      (NewStrategy "tiled" 5).NextSplit 4 = "horizontal") ∧
    ((NewStrategy "alternating" N).NextSplit i = (NewStrategy "" N).NextSplit i) := by
  have hiff : i.tmod 2 = 0 ↔ Even i := by
    rw [even_iff_two_dvd]
    exact Int.dvd_iff_tmod_eq_zero.symm
  refine ⟨?_, by decide, ?_⟩
  · by_cases h1 : kind = "tiled"
    · subst h1
      simp [NewStrategy, Strategy.NextSplit]
    by_cases h2 : kind = "even-horizontal"
    · subst h2
      simp [NewStrategy, Strategy.NextSplit]
    by_cases h3 : kind = "even-vertical"
    · subst h3
      simp [NewStrategy, Strategy.NextSplit]
    simp only [NewStrategy, h1, h2, h3, if_false, Strategy.NextSplit, hiff]
  · simp [NewStrategy, Strategy.NextSplit]

/-! ## Plans -/

namespace ghostty

theorem Stmt.skip_andThen (a : Stmt) : Stmt.skip.andThen a = a := rfl

theorem Stmt.andThen_skip (a : Stmt) : a.andThen Stmt.skip = a := by
  funext issued
  simp only [Stmt.andThen, Stmt.skip]
  rcases h : a issued with ⟨_ | e, t⟩ <;> rfl

theorem Stmt.andThen_assoc (a b c : Stmt) :
    (a.andThen b).andThen c = a.andThen (b.andThen c) := by
  funext issued
  simp only [Stmt.andThen]
  rcases h : a issued with ⟨_ | e, t⟩ <;> simp

end ghostty

theorem runPlan_cons (as : Backend) (p : PlanStep) (rest : List PlanStep) :
    runPlan as (p :: rest) = (runPlan as [p]).andThen (runPlan as rest) := by
  funext issued
  simp only [runPlan, Stmt.andThen, Stmt.skip]
  cases as issued.length p.1 <;> rfl

theorem runPlan_append (as : Backend) (P Q : List PlanStep) :
    runPlan as (P ++ Q) = (runPlan as P).andThen (runPlan as Q) := by
  induction P with
  | nil => rfl
  | cons p rest ih =>
    rw [List.cons_append, runPlan_cons, ih, ← Stmt.andThen_assoc, ← runPlan_cons]

theorem invoke_eq_runPlan (as : Backend) (c : Call) :
    Stmt.invoke as c = runPlan as [(c, none)] := by
  funext issued
  simp only [Stmt.invoke, runPlan, Stmt.skip, PlanStep.wrap]
  cases as issued.length c <;> rfl

theorem wrapErr_eq_runPlan (as : Backend) (c : Call) (pre : String) :
    Stmt.wrapErr pre (Stmt.invoke as c) = runPlan as [(c, some pre)] := by
  funext issued
  simp only [Stmt.wrapErr, Stmt.invoke, runPlan, Stmt.skip, PlanStep.wrap]
  cases as issued.length c <;> rfl

theorem forUp_eq_runPlan (as : Backend) (body : Nat → Stmt) (f : Nat → List PlanStep)
    (h : ∀ i, body i = runPlan as (f i)) (i n : Nat) :
    Stmt.forUp body i n = runPlan as ((List.range' i n).flatMap f) := by
  induction n generalizing i with
  | zero => rfl
  | succ n ih =>
    rw [Stmt.forUp, ih, h, List.range'_succ, List.flatMap_cons, runPlan_append]

theorem forDown_eq_runPlan (as : Backend) (c : Call) (n : Nat) :
    Stmt.forDown (Stmt.invoke as c) n = runPlan as (List.replicate n (c, none)) := by
  induction n with
  | zero => rfl
  | succ n ih =>
    rw [Stmt.forDown, ih, List.replicate_succ, runPlan_cons, invoke_eq_runPlan]

theorem forEach_eq_runPlan (as : Backend) (cmds : List String) :
    Stmt.forEach (fun cmd => Stmt.invoke as (.typeText cmd)) cmds
      = runPlan as (cmds.map (fun cmd => (Call.typeText cmd, none))) := by
  induction cmds with
  | nil => rfl
  | cons cmd rest ih =>
    rw [Stmt.forEach, ih, List.map_cons, runPlan_cons, invoke_eq_runPlan]

theorem rootChange_eq_runPlan (as : Backend) (window : WindowConfig) :
    rootChange as window = runPlan as ((rootCalls window).map (fun c => (c, none))) := by
  unfold rootChange rootCalls
  by_cases h : window.Root ≠ ""
  · rw [if_pos h, if_pos h, invoke_eq_runPlan, invoke_eq_runPlan, ← runPlan_append]
    rfl
  · rw [if_neg h, if_neg h]
    rfl

theorem splitBody_eq_runPlan (as : Backend) (window : WindowConfig) (i : Nat) :
    splitBody as (NewStrategy window.Layout (window.Panes.length : Int)) i
      = runPlan as [splitStep window i] := by
  unfold splitBody splitStep
  by_cases h : (NewStrategy window.Layout (window.Panes.length : Int)).NextSplit (i : Int)
      = "horizontal"
  · simp only [h, if_true, wrapErr_eq_runPlan]
  · simp only [h, if_false, wrapErr_eq_runPlan]

theorem dispatchBody_eq_runPlan (as : Backend) (window : WindowConfig) (i : Nat) :
    dispatchBody as window i
      = runPlan as ((paneCalls window i).map (fun c => (c, none))) := by
  have h1 : (if i > 0 then
        (Stmt.invoke as .activateGhostty).andThen (Stmt.invoke as .gotoNextSplit)
      else Stmt.skip) = runPlan as ((navCalls i).map (fun c => (c, none))) := by
    unfold navCalls
    by_cases h : i > 0
    · rw [if_pos h, if_pos h, invoke_eq_runPlan, invoke_eq_runPlan, ← runPlan_append]
      rfl
    · rw [if_neg h, if_neg h]
      rfl
  have h2 : ∀ r : String, (if r ≠ "" ∧ i ≠ 0 then Stmt.invoke as (.typeText ("cd " ++ r))
      else Stmt.skip)
      = runPlan as ((if r ≠ "" ∧ i ≠ 0 then ["cd " ++ r] else []).map
          (fun cmd => (Call.typeText cmd, none))) := by
    intro r
    by_cases h : r ≠ "" ∧ i ≠ 0
    · rw [if_pos h, if_pos h, invoke_eq_runPlan]
      rfl
    · rw [if_neg h, if_neg h]
      rfl
  unfold dispatchBody
  simp only []
  rw [h1, h2, forEach_eq_runPlan, ← runPlan_append, ← runPlan_append]
  unfold paneCalls paneTexts
  simp only [List.map_append, List.map_map]
  rfl

theorem CreateWindow_eq_runPlan (as : Backend) (window : WindowConfig) :
    CreateWindow as window = runPlan as (windowPlan window) [] := by
  unfold CreateWindow windowPlan
  simp only [runPlan_append, Stmt.andThen_assoc]
  rw [rootChange_eq_runPlan, forDown_eq_runPlan,
    forUp_eq_runPlan as _ _ (splitBody_eq_runPlan as window),
    forUp_eq_runPlan as _ _ (dispatchBody_eq_runPlan as window)]
  have e1 : ∀ l : List Nat, (l.flatMap fun i => [splitStep window i])
      = l.map (splitStep window) := by
    intro l
    induction l with
    | nil => rfl
    | cons a l ih => rw [List.flatMap_cons, ih]; rfl
  have e2 : ∀ l : List Nat,
      (l.flatMap fun i => List.map (fun c => ((c, none) : PlanStep)) (paneCalls window i))
      = List.map (fun c => (c, none)) (l.flatMap (paneCalls window)) := by
    intro l
    induction l with
    | nil => rfl
    | cons a l ih => rw [List.flatMap_cons, List.flatMap_cons, List.map_append, ih]
  rw [e1, e2, ← List.range_eq_range']

theorem windowPlan_map_fst (window : WindowConfig) :
    (windowPlan window).map Prod.fst = windowCalls window := by
  unfold windowPlan windowCalls
  simp only [List.map_append, List.map_map, List.map_replicate]
  congr 1
  · congr 1
    congr 1
    exact List.map_id _
  · exact List.map_id _

theorem runPlan_calls_of_ok (as : Backend) (P : List PlanStep) (issued : List Call)
    (h : (runPlan as P issued).1 = none) :
    (runPlan as P issued).2 = issued ++ P.map Prod.fst := by
  induction P generalizing issued with
  | nil => simp [runPlan, Stmt.skip]
  | cons p rest ih =>
    simp only [runPlan] at h ⊢
    cases hc : as issued.length p.1 with
    | some err => simp [hc] at h
    | none =>
      simp only [hc] at h ⊢
      rw [ih _ h]
      simp

theorem runPlan_noFail (P : List PlanStep) (issued : List Call) :
    runPlan Backend.noFail P issued = (none, issued ++ P.map Prod.fst) := by
  induction P generalizing issued with
  | nil => simp [runPlan, Stmt.skip]
  | cons p rest ih =>
    have h : Backend.noFail issued.length p.1 = none := rfl
    simp only [runPlan, h]
    rw [ih]
    simp

theorem runPlan_fail_at (as : Backend) (P : List PlanStep) (issued : List Call)
    (k : Nat) (p : PlanStep) (err : String)
    (hp : P[k]? = some p)
    (hbefore : ∀ j, j < k → ∀ q, P[j]? = some q → as (issued.length + j) q.1 = none)
    (hfail : as (issued.length + k) p.1 = some err) :
    runPlan as P issued = (some (p.wrap err), issued ++ (P.map Prod.fst).take (k + 1)) := by
  induction P generalizing issued k with
  | nil => simp at hp
  | cons q rest ih =>
    cases k with
    | zero =>
      simp only [List.getElem?_cons_zero, Option.some.injEq] at hp
      subst hp
      simp only [Nat.add_zero] at hfail
      simp [runPlan, hfail]
    | succ k =>
      have h0 : as issued.length q.1 = none := by
        have := hbefore 0 (Nat.succ_pos k) q (by simp)
        simpa using this
      simp only [List.getElem?_cons_succ] at hp
      simp only [runPlan, h0]
      rw [ih (issued ++ [q.1]) k hp]
      · simp
      · intro j hj r hr
        have := hbefore (j + 1) (Nat.succ_lt_succ hj) r (by simpa using hr)
        simpa [Nat.add_assoc, Nat.add_comm 1 j] using this
      · simpa [Nat.add_assoc, Nat.add_comm 1 k] using hfail

theorem CreateWindow_noFail (window : WindowConfig) :
    CreateWindow Backend.noFail window = (none, windowCalls window) := by
  rw [CreateWindow_eq_runPlan, runPlan_noFail, windowPlan_map_fst]
  simp

theorem CreateWindow_calls_of_ok (as : Backend) (window : WindowConfig)
    (h : (CreateWindow as window).1 = none) :
    (CreateWindow as window).2 = windowCalls window := by
  rw [CreateWindow_eq_runPlan] at h ⊢
  rw [runPlan_calls_of_ok as _ _ h, windowPlan_map_fst]
  simp

theorem windowPlan_prefix (window : WindowConfig) (p : PlanStep)
    (hp : p ∈ windowPlan window) : p.2 = prefixOf p.1 := by
  unfold windowPlan at hp
  simp only [List.mem_append, List.mem_map, List.mem_replicate] at hp
  rcases hp with ((⟨c, hc, rfl⟩ | ⟨k, _, rfl⟩) | ⟨_, rfl⟩) | ⟨c, hc, rfl⟩
  · unfold rootCalls at hc
    split at hc
    · simp at hc
      rcases hc with rfl | rfl <;> rfl
    · simp at hc
  · unfold splitStep
    split <;> rfl
  · rfl
  · simp only [List.mem_flatMap] at hc
    obtain ⟨i, _, hc⟩ := hc
    unfold paneCalls navCalls at hc
    simp only [List.mem_append, List.mem_map] at hc
    rcases hc with hc | ⟨t, _, rfl⟩
    · split at hc
      · simp at hc
        rcases hc with rfl | rfl <;> rfl
      · simp at hc
    · rfl

/-! ## Config validation -/

/-- C8: `Config.Validate` returns an error if and only if the config has no
window, or some window has an empty name, or no pane, or a non-empty layout
outside the four known kinds; equivalently it accepts exactly the configs with
at least one window, each with a non-empty name, at least one pane and a
layout that is empty or known. -/
theorem Validate_error_iff (c : Config) :
    (c.Validate.isSome = true ↔
      (c.Windows.length = 0 ∨ ∃ w ∈ c.Windows, w.Name = "" ∨ w.Panes.length = 0 ∨
        (w.Layout ≠ "" ∧ w.Layout ≠ "tiled" ∧ w.Layout ≠ "even-horizontal" ∧
          w.Layout ≠ "even-vertical" ∧ w.Layout ≠ "alternating"))) ∧
    (c.Validate = none ↔
      (1 ≤ c.Windows.length ∧ ∀ w ∈ c.Windows, w.Name ≠ "" ∧ 1 ≤ w.Panes.length ∧
        (w.Layout = "" ∨ w.Layout = "tiled" ∨ w.Layout = "even-horizontal" ∨
          w.Layout = "even-vertical" ∨ w.Layout = "alternating"))) := by
  have hbad : ∀ w : WindowConfig,
      (w.Layout ≠ "" ∧ validLayouts w.Layout = false) ↔
        (w.Layout ≠ "" ∧ w.Layout ≠ "tiled" ∧ w.Layout ≠ "even-horizontal" ∧
          w.Layout ≠ "even-vertical" ∧ w.Layout ≠ "alternating") := by
    intro w
    have := validLayouts_eq_true w.Layout
    rw [← Bool.not_eq_true, this]
    simp only [not_or, ne_eq]
  have key : c.Validate.isSome = true ↔
      (c.Windows.length = 0 ∨ ∃ w ∈ c.Windows, w.Name = "" ∨ w.Panes.length = 0 ∨
        (w.Layout ≠ "" ∧ w.Layout ≠ "tiled" ∧ w.Layout ≠ "even-horizontal" ∧
          w.Layout ≠ "even-vertical" ∧ w.Layout ≠ "alternating")) := by
    unfold Config.Validate
    by_cases h0 : c.Windows.length = 0
    · simp [h0]
    · rw [if_neg h0, validateWindows_isSome]
      simp only [h0, false_or, hbad]
  refine ⟨key, ?_⟩
  rw [← Option.not_isSome_iff_eq_none, key]
  simp only [not_or, not_exists, not_and, ne_eq]
  constructor
  · rintro ⟨h0, h⟩
    refine ⟨by omega, fun w hw => ?_⟩
    obtain ⟨h1, h2, h3⟩ := h w hw
    refine ⟨h1, by omega, ?_⟩
    by_cases hl : w.Layout = ""
    · exact Or.inl hl
    · right
      by_contra hcon
      simp only [not_or] at hcon
      exact h3 hl hcon.1 hcon.2.1 hcon.2.2.1 hcon.2.2.2
  · rintro ⟨h0, h⟩
    refine ⟨by omega, fun w hw => ?_⟩
    obtain ⟨h1, h2, h3⟩ := h w hw
    refine ⟨h1, by omega, fun hl a b c' d => ?_⟩
    rcases h3 with h3 | h3 | h3 | h3 | h3
    · exact hl h3
    · exact a h3
    · exact b h3
    · exact c' h3
    · exact d h3

/-! ## Failure semantics -/

/-- C7: if call number `k` (counted from 0) of the failure-free sequence is
the first call on which the backend fails, `CreateWindow` returns an error and
has issued exactly the first `k + 1` calls of the failure-free sequence:
nothing is retried and nothing is issued after the failing call. -/
theorem CreateWindow_stops_at_first_failure (as : Backend) (window : WindowConfig)
    (k : Nat) (c : Call) (err : String)
    (hc : (CreateWindow Backend.noFail window).2[k]? = some c)
    (hbefore : ∀ j, j < k → ∀ d, (CreateWindow Backend.noFail window).2[j]? = some d →
      as j d = none)
    (hfail : as k c = some err) :
    (CreateWindow as window).1.isSome = true ∧
      (CreateWindow as window).2 = (CreateWindow Backend.noFail window).2.take (k + 1) := by
  rw [CreateWindow_noFail] at hc hbefore ⊢
  simp only [← windowPlan_map_fst, List.getElem?_map, Option.map_eq_some'] at hc hbefore
  obtain ⟨p, hp, rfl⟩ := hc
  rw [CreateWindow_eq_runPlan,
    runPlan_fail_at as (windowPlan window) [] k p err hp
      (fun j hj q hq => by simpa using hbefore j hj q.1 ⟨q, hq, rfl⟩)
      (by simpa using hfail)]
  simp [windowPlan_map_fst]

theorem CreateWindow_stops_at_first_failure_witness :
    (CreateWindow (Backend.failingAt 1 "boom") devWindow).1.isSome = true ∧
      (CreateWindow (Backend.failingAt 1 "boom") devWindow).2
        = (CreateWindow Backend.noFail devWindow).2.take 2 :=
  CreateWindow_stops_at_first_failure (Backend.failingAt 1 "boom") devWindow 1
    Call.splitVertical "boom" (by decide)
    (fun j hj d _ => by
      have : j ≠ 1 := by omega
      simp [Backend.failingAt, this])
    (by simp [Backend.failingAt])

/-- C9, as the code has it: when call number `k` is the first to fail, with
error `err`, the error `CreateWindow` returns is `err` prefixed with the
failed operation if the call is a split ("splitting horizontally: " or
"splitting vertically: ") and `err` itself for every other call; it carries no
pane or step index. -/
theorem CreateWindow_error_message (as : Backend) (window : WindowConfig)
    (k : Nat) (c : Call) (err : String)
    (hc : (CreateWindow Backend.noFail window).2[k]? = some c)
    (hbefore : ∀ j, j < k → ∀ d, (CreateWindow Backend.noFail window).2[j]? = some d →
      as j d = none)
    (hfail : as k c = some err) :
    (CreateWindow as window).1 = some
      (match c with
        | .splitHorizontal => "splitting horizontally: " ++ err
        | .splitVertical => "splitting vertically: " ++ err
        | _ => err) := by
  rw [CreateWindow_noFail] at hc hbefore
  simp only [← windowPlan_map_fst, List.getElem?_map, Option.map_eq_some'] at hc hbefore
  obtain ⟨p, hp, rfl⟩ := hc
  rw [CreateWindow_eq_runPlan,
    runPlan_fail_at as (windowPlan window) [] k p err hp
      (fun j hj q hq => by simpa using hbefore j hj q.1 ⟨q, hq, rfl⟩)
      (by simpa using hfail)]
  have hpre := windowPlan_prefix window p (List.getElem?_mem hp)
  obtain ⟨call, pre⟩ := p
  simp only at hpre
  subst hpre
  cases call <;> rfl

theorem CreateWindow_error_message_witness :
    (CreateWindow (Backend.failingAt 1 "boom") devWindow).1
      = some "splitting vertically: boom" :=
  CreateWindow_error_message (Backend.failingAt 1 "boom") devWindow 1
    Call.splitVertical "boom" (by decide)
    (fun j hj d _ => by
      have : j ≠ 1 := by omega
      simp [Backend.failingAt, this])
    (by simp [Backend.failingAt])

/-- C9 as stated fails: in `rowWindow` the split that creates pane 1 and the
split that creates pane 2 fail with the same driver error at different steps,
and `CreateWindow` returns the same error for both. -/
theorem CreateWindow_error_has_no_index :
    (CreateWindow (Backend.failingAt 0 "boom") rowWindow).2 = [Call.splitHorizontal] ∧
    (CreateWindow (Backend.failingAt 1 "boom") rowWindow).2
      = [Call.splitHorizontal, Call.splitHorizontal] ∧
    (CreateWindow (Backend.failingAt 0 "boom") rowWindow).1
      = some "splitting horizontally: boom" ∧
    (CreateWindow (Backend.failingAt 1 "boom") rowWindow).1
      = some "splitting horizontally: boom" := by
  decide

/-! ## The failure-free call sequence -/

theorem splitStep_fst (window : WindowConfig) (k : Nat) :
    (splitStep window k).1
      = if (NewStrategy window.Layout (window.Panes.length : Int)).NextSplit (k : Int)
          = "horizontal" then Call.splitHorizontal else Call.splitVertical := by
  unfold splitStep
  split <;> rfl

theorem splitStep_isSplit (window : WindowConfig) (k : Nat) :
    (splitStep window k).1.isSplit = true := by
  rw [splitStep_fst]
  split <;> rfl

theorem rootCalls_isText (window : WindowConfig) (c : Call) (hc : c ∈ rootCalls window) :
    c.isText = true := by
  unfold rootCalls at hc
  split at hc
  · simp at hc
    rcases hc with rfl | rfl <;> rfl
  · simp at hc

theorem paneCalls_mem (window : WindowConfig) (i : Nat) (c : Call)
    (hc : c ∈ paneCalls window i) :
    c = .activateGhostty ∨ c = .gotoNextSplit ∨ c.isText = true := by
  unfold paneCalls navCalls at hc
  simp only [List.mem_append, List.mem_map] at hc
  rcases hc with hc | ⟨t, _, rfl⟩
  · split at hc
    · simp at hc
      rcases hc with rfl | rfl
      · exact Or.inl rfl
      · exact Or.inr (Or.inl rfl)
    · simp at hc
  · exact Or.inr (Or.inr rfl)

theorem dispatch_mem (window : WindowConfig) (l : List Nat) (c : Call)
    (hc : c ∈ l.flatMap (paneCalls window)) :
    c = .activateGhostty ∨ c = .gotoNextSplit ∨ c.isText = true := by
  simp only [List.mem_flatMap] at hc
  obtain ⟨i, _, hc⟩ := hc
  exact paneCalls_mem window i c hc

theorem windowCalls_filter_isSplit (window : WindowConfig) :
    (windowCalls window).filter Call.isSplit
      = (List.range' 1 (window.Panes.length - 1)).map (fun k => (splitStep window k).1) := by
  unfold windowCalls
  simp only [List.filter_append]
  have h1 : (rootCalls window).filter Call.isSplit = [] := by
    rw [List.filter_eq_nil_iff]
    intro c hc
    have := rootCalls_isText window c hc
    cases c <;> simp_all [Call.isSplit, Call.isText]
  have h2 : ((List.range' 1 (window.Panes.length - 1)).map
      (fun k => (splitStep window k).1)).filter Call.isSplit
      = (List.range' 1 (window.Panes.length - 1)).map (fun k => (splitStep window k).1) := by
    rw [List.filter_eq_self]
    intro c hc
    simp only [List.mem_map] at hc
    obtain ⟨k, _, rfl⟩ := hc
    exact splitStep_isSplit window k
  have h3 : (List.replicate (window.Panes.length - 1) Call.gotoPreviousSplit).filter
      Call.isSplit = [] := by
    rw [List.filter_eq_nil_iff]
    intro c hc
    rw [List.eq_of_mem_replicate hc]
    simp [Call.isSplit]
  have h4 : ((List.range window.Panes.length).flatMap (paneCalls window)).filter
      Call.isSplit = [] := by
    rw [List.filter_eq_nil_iff]
    intro c hc
    rcases dispatch_mem window _ c hc with rfl | rfl | h
    · simp [Call.isSplit]
    · simp [Call.isSplit]
    · cases c <;> simp_all [Call.isSplit, Call.isText]
  rw [h1, h2, h3, h4]
  simp

/-- C1: in a run of `CreateWindow` that returns no error on a window of `N`
panes, the split calls issued are, in order, one per index `k = 1, ..., N-1`:
`splitHorizontal` when `NewStrategy(layout, N).NextSplit(k)` is "horizontal"
and `splitVertical` otherwise; there are exactly `N - 1` of them. -/
theorem CreateWindow_split_sequence (as : Backend) (window : WindowConfig)
    (hok : (CreateWindow as window).1 = none) :
    (CreateWindow as window).2.filter Call.isSplit
      = (List.range' 1 (window.Panes.length - 1)).map (fun (k : Nat) =>
          if (NewStrategy window.Layout (window.Panes.length : Int)).NextSplit (k : Int)
              = "horizontal"
          then Call.splitHorizontal else Call.splitVertical) ∧
    ((CreateWindow as window).2.filter Call.isSplit).length = window.Panes.length - 1 := by
  rw [CreateWindow_calls_of_ok as window hok, windowCalls_filter_isSplit]
  refine ⟨?_, by simp⟩
  apply List.map_congr_left
  intro k _
  exact splitStep_fst window k

theorem CreateWindow_split_sequence_witness :
    (CreateWindow Backend.noFail devWindow).2.filter Call.isSplit
      = (List.range' 1 (devWindow.Panes.length - 1)).map (fun (k : Nat) =>
          if (NewStrategy devWindow.Layout (devWindow.Panes.length : Int)).NextSplit (k : Int)
              = "horizontal"
          then Call.splitHorizontal else Call.splitVertical) ∧
    ((CreateWindow Backend.noFail devWindow).2.filter Call.isSplit).length
      = devWindow.Panes.length - 1 :=
  CreateWindow_split_sequence Backend.noFail devWindow (by decide)

/-- C4 as stated fails: for the "dev" window the split sequence is
horizontal (pane 1) then vertical (pane 2), not vertical then horizontal. -/
theorem devWindow_splits_not_vertical_first :
    (CreateWindow Backend.noFail devWindow).1 = none ∧
    (CreateWindow Backend.noFail devWindow).2.filter Call.isSplit
      = [Call.splitHorizontal, Call.splitVertical] ∧
    (CreateWindow Backend.noFail devWindow).2.filter Call.isSplit
      ≠ [Call.splitVertical, Call.splitHorizontal] := by
  decide

/-- C4, as the code has it: a run of `CreateWindow` on the "dev" window that
returns no error issues a horizontal split (pane 1), a vertical split
(pane 2), two navigate-previous, then dispatches panes 0, 1, 2 in order with
one re-activation and one navigate-next before pane 1 and before pane 2; the
last text sent is "code .". -/
theorem devWindow_calls (as : Backend) (hok : (CreateWindow as devWindow).1 = none) :
    (CreateWindow as devWindow).2
      = [Call.splitHorizontal, Call.splitVertical,
         Call.gotoPreviousSplit, Call.gotoPreviousSplit,
         Call.typeText "ls",
         Call.activateGhostty, Call.gotoNextSplit, Call.typeText "top",
         Call.activateGhostty, Call.gotoNextSplit, Call.typeText "code ."] := by
  rw [CreateWindow_calls_of_ok as devWindow hok]
  decide

theorem devWindow_calls_witness :
    (CreateWindow Backend.noFail devWindow).2
      = [Call.splitHorizontal, Call.splitVertical,
         Call.gotoPreviousSplit, Call.gotoPreviousSplit,
         Call.typeText "ls",
         Call.activateGhostty, Call.gotoNextSplit, Call.typeText "top",
         Call.activateGhostty, Call.gotoNextSplit, Call.typeText "code ."] :=
  devWindow_calls Backend.noFail (by decide)

theorem windowCalls_count_previous (window : WindowConfig) :
    (windowCalls window).count Call.gotoPreviousSplit = window.Panes.length - 1 := by
  unfold windowCalls
  have h1 : (rootCalls window).count Call.gotoPreviousSplit = 0 := by
    rw [List.count_eq_zero]
    intro hc
    have := rootCalls_isText window _ hc
    simp [Call.isText] at this
  have h2 : ((List.range' 1 (window.Panes.length - 1)).map
      (fun k => (splitStep window k).1)).count Call.gotoPreviousSplit = 0 := by
    rw [List.count_eq_zero]
    intro hc
    simp only [List.mem_map] at hc
    obtain ⟨k, _, hk⟩ := hc
    have := splitStep_isSplit window k
    rw [hk] at this
    simp [Call.isSplit] at this
  have h4 : ((List.range window.Panes.length).flatMap (paneCalls window)).count
      Call.gotoPreviousSplit = 0 := by
    rw [List.count_eq_zero]
    intro hc
    rcases dispatch_mem window _ _ hc with h | h | h
    · cases h
    · cases h
    · simp [Call.isText] at h
  simp only [List.count_append, h1, h2, h4, List.count_replicate_self]
  omega

/-- C5: in a run of `CreateWindow` that returns no error on a window of `N`
panes, whatever its layout, exactly `N - 1` navigate-previous calls are
issued, in one block that follows the root change and all `N - 1` split
calls and precedes every navigate-next call and pane text; a single-pane
window gets no split and no navigation, only (after the root change, if
any) the commands of pane 0. -/
theorem CreateWindow_rewind (as : Backend) (window : WindowConfig)
    (hok : (CreateWindow as window).1 = none) :
    (CreateWindow as window).2.count Call.gotoPreviousSplit = window.Panes.length - 1 ∧
    (∃ splits dispatch,
      (CreateWindow as window).2
        = rootCalls window ++ splits
            ++ List.replicate (window.Panes.length - 1) Call.gotoPreviousSplit ++ dispatch ∧
      splits.length = window.Panes.length - 1 ∧
      (∀ c ∈ splits, c.isSplit = true) ∧
      (∀ c ∈ dispatch, c = Call.activateGhostty ∨ c = Call.gotoNextSplit ∨ c.isText = true)) ∧
    (window.Panes.length = 1 →
      (CreateWindow as window).2
        = rootCalls window ++ (window.Panes.getD 0 .rawNil).Commands.map Call.typeText) := by
  rw [CreateWindow_calls_of_ok as window hok]
  refine ⟨windowCalls_count_previous window, ⟨_, _, rfl, by simp, ?_, ?_⟩, ?_⟩
  · intro c hc
    simp only [List.mem_map] at hc
    obtain ⟨k, _, rfl⟩ := hc
    exact splitStep_isSplit window k
  · intro c hc
    exact dispatch_mem window _ c hc
  · intro h1
    unfold windowCalls
    rw [h1, show List.range 1 = [0] from rfl]
    simp [paneCalls, navCalls, paneTexts]

theorem CreateWindow_rewind_witness :
    ((CreateWindow Backend.noFail rootedWindow).2.count Call.gotoPreviousSplit = 2 ∧
      (∃ splits dispatch,
        (CreateWindow Backend.noFail rootedWindow).2
          = [Call.typeText "cd /src", Call.typeText "clear"] ++ splits
              ++ [Call.gotoPreviousSplit, Call.gotoPreviousSplit] ++ dispatch ∧
        splits.length = 2 ∧
        (∀ c ∈ splits, c.isSplit = true) ∧
        (∀ c ∈ dispatch,
          c = Call.activateGhostty ∨ c = Call.gotoNextSplit ∨ c.isText = true))) ∧
    (CreateWindow Backend.noFail soloWindow).2
      = [Call.typeText "cd /src", Call.typeText "clear", Call.typeText "make"] :=
  ⟨⟨(CreateWindow_rewind Backend.noFail rootedWindow (by decide)).1,
      (CreateWindow_rewind Backend.noFail rootedWindow (by decide)).2.1⟩,
    ((CreateWindow_rewind Backend.noFail soloWindow (by decide)).2.2 rfl).trans (by decide)⟩

theorem paneCalls_eq (window : WindowConfig) (i : Nat) :
    paneCalls window i
      = (match window.Panes.getD i PaneEntry.rawNil with
          | .rawString v =>
              (if i > 0 then [Call.activateGhostty, Call.gotoNextSplit] else [])
                ++ (if i > 0 ∧ window.Root ≠ "" then [Call.typeText ("cd " ++ window.Root)]
                    else [])
                ++ [Call.typeText v]
          | .rawConfig cfg =>
              (if i > 0 then [Call.activateGhostty, Call.gotoNextSplit] else [])
                ++ (if i > 0 ∧ (if cfg.Root ≠ "" then cfg.Root else window.Root) ≠ "" then
                      [Call.typeText
                        ("cd " ++ (if cfg.Root ≠ "" then cfg.Root else window.Root))]
                    else [])
                ++ cfg.Commands.map Call.typeText
          | .rawNil =>
              (if i > 0 then [Call.activateGhostty, Call.gotoNextSplit] else [])
                ++ (if i > 0 ∧ window.Root ≠ "" then [Call.typeText ("cd " ++ window.Root)]
                    else [])) := by
  have hcond : ∀ r : String, (r ≠ "" ∧ i ≠ 0) ↔ (i > 0 ∧ r ≠ "") :=
    fun r => ⟨fun h => ⟨Nat.pos_of_ne_zero h.2, h.1⟩, fun h => ⟨h.2, Nat.pos_iff_ne_zero.1 h.1⟩⟩
  have hmap : ∀ (c : Prop) [Decidable c] (t : String),
      List.map Call.typeText (if c then [t] else [])
        = if c then [Call.typeText t] else [] := by
    intro c _ t
    split <;> rfl
  unfold paneCalls paneTexts navCalls
  cases hp : window.Panes.getD i PaneEntry.rawNil with
  | rawNil =>
    simp only [paneRoot, PaneEntry.GetRoot, PaneEntry.Commands, if_true, hcond,
      List.append_nil, List.map_append]
    congr 1
    exact hmap _ _
  | rawString v =>
    simp only [paneRoot, PaneEntry.GetRoot, PaneEntry.Commands, if_true, hcond,
      List.map_append, List.map_cons, List.map_nil, List.append_assoc]
    congr 2
    exact hmap _ _
  | rawConfig cfg =>
    have hr : (if cfg.Root = "" then window.Root else cfg.Root)
        = (if cfg.Root ≠ "" then cfg.Root else window.Root) := by
      by_cases h : cfg.Root = "" <;> simp [h]
    simp only [paneRoot, PaneEntry.GetRoot, PaneEntry.Commands, hr, hcond,
      List.map_append, List.append_assoc]
    congr 2
    exact hmap _ _

/-- C6: in a run of `CreateWindow` that returns no error, the calls are the
root change, the `N - 1` splits, the `N - 1` navigate-previous, and then the
dispatches of panes `0, ..., N-1` in order.  The dispatch of pane `i` is: for
`i > 0` a re-activation and a navigate-next; then, with `r` the pane's own
root if non-empty and the window's root otherwise (a pane given as a plain
string, or an empty pane, has no root of its own), the single text "cd r"
when `i > 0` and `r` is non-empty, and no cd text when `i = 0` or `r` is
empty; then the pane's commands (the string itself for a plain-string pane,
the `commands` list for an object pane, none for an empty pane), one
`typeText` each, in declared order. -/
theorem CreateWindow_pane_dispatch (as : Backend) (window : WindowConfig)
    (hok : (CreateWindow as window).1 = none) :
    (CreateWindow as window).2
      = rootCalls window
        ++ (List.range' 1 (window.Panes.length - 1)).map (fun (k : Nat) =>
            if (NewStrategy window.Layout (window.Panes.length : Int)).NextSplit (k : Int)
                = "horizontal"
            then Call.splitHorizontal else Call.splitVertical)
        ++ List.replicate (window.Panes.length - 1) Call.gotoPreviousSplit
        ++ (List.range window.Panes.length).flatMap (fun i =>
            match window.Panes.getD i PaneEntry.rawNil with
            | .rawString v =>
                (if i > 0 then [Call.activateGhostty, Call.gotoNextSplit] else [])
                  ++ (if i > 0 ∧ window.Root ≠ "" then
                        [Call.typeText ("cd " ++ window.Root)]
                      else [])
                  ++ [Call.typeText v]
            | .rawConfig cfg =>
                (if i > 0 then [Call.activateGhostty, Call.gotoNextSplit] else [])
                  ++ (if i > 0 ∧ (if cfg.Root ≠ "" then cfg.Root else window.Root) ≠ "" then
                        [Call.typeText
                          ("cd " ++ (if cfg.Root ≠ "" then cfg.Root else window.Root))]
                      else [])
                  ++ cfg.Commands.map Call.typeText
            | .rawNil =>
                (if i > 0 then [Call.activateGhostty, Call.gotoNextSplit] else [])
                  ++ (if i > 0 ∧ window.Root ≠ "" then
                        [Call.typeText ("cd " ++ window.Root)]
                      else [])) := by
  rw [CreateWindow_calls_of_ok as window hok]
  unfold windowCalls
  have hfun : paneCalls window = _ := funext (paneCalls_eq window)
  have hsplit : (fun k => (splitStep window k).1) = _ := funext (splitStep_fst window)
  rw [hfun, hsplit]

theorem CreateWindow_pane_dispatch_witness :
    (CreateWindow Backend.noFail rootedWindow).2
      = [Call.typeText "cd /src", Call.typeText "clear",
         Call.splitVertical, Call.splitHorizontal,
         Call.gotoPreviousSplit, Call.gotoPreviousSplit,
         Call.typeText "vim",
         Call.activateGhostty, Call.gotoNextSplit,
         Call.typeText "cd /tmp", Call.typeText "make", Call.typeText "make test",
         Call.activateGhostty, Call.gotoNextSplit,
         Call.typeText "cd /src"] :=
  (CreateWindow_pane_dispatch Backend.noFail rootedWindow (by decide)).trans (by decide)

/-! ## The focus cursor along a run -/

theorem Focus.after_append (f : Focus) (a b : List Call) :
    f.after (a ++ b) = (f.after a).after b := by
  simp [Focus.after, List.foldl_append]

theorem Focus.after_cons (f : Focus) (c : Call) (l : List Call) :
    f.after (c :: l) = (f.step c).after l := rfl

theorem focusLog_append (f : Focus) (a b : List Call) :
    focusLog f (a ++ b) = focusLog f a ++ focusLog (f.after a) b := by
  induction a generalizing f with
  | nil => rfl
  | cons c a ih => simp [focusLog, ih, Focus.after_cons]

theorem Focus.step_isText (f : Focus) (c : Call) (h : c.isText = true) : f.step c = f := by
  cases c <;> simp_all [Call.isText, Focus.step]

theorem Focus.step_isSplit (f : Focus) (c : Call) (h : c.isSplit = true) :
    f.step c = ⟨f.count, f.count + 1⟩ := by
  cases c <;> simp_all [Call.isSplit, Focus.step]

theorem focusLog_texts (f : Focus) (l : List Call) (h : ∀ c ∈ l, c.isText = true) :
    focusLog f l = l.map (fun c => (f.cursor, c)) ∧ f.after l = f := by
  induction l with
  | nil => exact ⟨rfl, rfl⟩
  | cons c l ih =>
    have hc := Focus.step_isText f c (h c (List.mem_cons_self _ _))
    have := ih (fun d hd => h d (List.mem_cons_of_mem _ hd))
    simp [focusLog, Focus.after_cons, hc, this]

theorem focusLog_splits (window : WindowConfig) (c : Int) (m n : Nat) :
    focusLog ⟨c, m⟩ ((List.range' m n).map (fun k => (splitStep window k).1))
        = (List.range' m n).map (fun (k : Nat) => ((k : Int), (splitStep window k).1)) ∧
      Focus.after ⟨c, m⟩ ((List.range' m n).map (fun k => (splitStep window k).1))
        = ⟨if n = 0 then c else ((m + n - 1 : Nat) : Int), m + n⟩ := by
  induction n generalizing c m with
  | zero => exact ⟨rfl, rfl⟩
  | succ n ih =>
    have hs := Focus.step_isSplit ⟨c, m⟩ _ (splitStep_isSplit window m)
    obtain ⟨ih1, ih2⟩ := ih (m : Int) (m + 1)
    simp only [List.range'_succ, List.map_cons, focusLog, Focus.after_cons, hs, ih1, ih2]
    refine ⟨trivial, ?_⟩
    by_cases hn : n = 0
    · subst hn
      simp
    · simp only [hn, if_false, Nat.succ_ne_zero]
      congr 1
      · congr 1
        omega
      · omega

theorem focusLog_rewind (c : Int) (m n : Nat) :
    focusLog ⟨c, m⟩ (List.replicate n Call.gotoPreviousSplit)
        = (List.range n).map (fun (j : Nat) => (c - 1 - (j : Int), Call.gotoPreviousSplit)) ∧
      Focus.after ⟨c, m⟩ (List.replicate n Call.gotoPreviousSplit) = ⟨c - n, m⟩ := by
  induction n generalizing c with
  | zero => simp [focusLog, Focus.after]
  | succ n ih =>
    obtain ⟨ih1, ih2⟩ := ih (c - 1)
    simp only [List.replicate_succ, focusLog, Focus.after_cons, Focus.step, ih1, ih2,
      List.range_succ_eq_map, List.map_cons, List.map_map]
    refine ⟨?_, ?_⟩
    · congr 1
      · simp
      · apply List.map_congr_left
        intro j _
        simp only [Function.comp, Nat.succ_eq_add_one, Nat.cast_add, Nat.cast_one]
        congr 1
        omega
    · congr 1
      push_cast
      omega

theorem focusLog_pane (window : WindowConfig) (N i : Nat) :
    focusLog ⟨((i - 1 : Nat) : Int), N⟩ (paneCalls window i) = paneLog window i ∧
      Focus.after ⟨((i - 1 : Nat) : Int), N⟩ (paneCalls window i) = ⟨(i : Int), N⟩ := by
  unfold paneCalls paneLog navCalls
  have htx : ∀ f : Focus, focusLog f ((paneTexts window i).map Call.typeText)
        = (paneTexts window i).map (fun t => (f.cursor, Call.typeText t)) ∧
      f.after ((paneTexts window i).map Call.typeText) = f := by
    intro f
    have := focusLog_texts f ((paneTexts window i).map Call.typeText) (by
      intro c hc
      simp only [List.mem_map] at hc
      obtain ⟨t, _, rfl⟩ := hc
      rfl)
    simpa [List.map_map, Function.comp] using this
  rw [focusLog_append, Focus.after_append]
  by_cases h : i > 0
  · have hi : ((i - 1 : Nat) : Int) = (i : Int) - 1 := by omega
    have hafter : Focus.after ⟨((i - 1 : Nat) : Int), N⟩ [Call.activateGhostty, Call.gotoNextSplit]
        = ⟨(i : Int), N⟩ := by
      simp only [Focus.after, List.foldl, Focus.step, hi]
      congr 1
      omega
    simp only [if_pos h, hafter, (htx _).1, (htx _).2]
    simp only [focusLog, Focus.step, hi]
    simp
  · have hi : i = 0 := by omega
    subst hi
    simp only [if_neg h, (htx _).1, (htx _).2]
    simp [focusLog, Focus.after]

theorem focusLog_dispatch (window : WindowConfig) (N n : Nat) :
    focusLog ⟨0, N⟩ ((List.range n).flatMap (paneCalls window))
        = (List.range n).flatMap (paneLog window) ∧
      Focus.after ⟨0, N⟩ ((List.range n).flatMap (paneCalls window))
        = ⟨((n - 1 : Nat) : Int), N⟩ := by
  induction n with
  | zero => exact ⟨rfl, rfl⟩
  | succ n ih =>
    obtain ⟨ih1, ih2⟩ := ih
    obtain ⟨hp1, hp2⟩ := focusLog_pane window N n
    simp only [List.range_succ, List.flatMap_append, List.flatMap_cons, List.flatMap_nil,
      List.append_nil, focusLog_append, Focus.after_append, ih1, ih2, hp1, hp2]
    simp

theorem windowCalls_focusLog (window : WindowConfig) (hN : 1 ≤ window.Panes.length) :
    focusLog Focus.init (windowCalls window)
        = (rootCalls window).map (fun c => ((0 : Int), c))
          ++ (List.range' 1 (window.Panes.length - 1)).map
              (fun (k : Nat) => ((k : Int), (splitStep window k).1))
          ++ (List.range (window.Panes.length - 1)).map
              (fun (j : Nat) => ((window.Panes.length : Int) - 2 - (j : Int),
                Call.gotoPreviousSplit))
          ++ (List.range window.Panes.length).flatMap (paneLog window) ∧
      Focus.init.after (windowCalls window)
        = ⟨(window.Panes.length : Int) - 1, window.Panes.length⟩ := by
  obtain ⟨hr1, hr2⟩ := focusLog_texts Focus.init (rootCalls window) (rootCalls_isText window)
  obtain ⟨hs1, hs2⟩ := focusLog_splits window 0 1 (window.Panes.length - 1)
  have hs2' : Focus.after ⟨0, 1⟩ ((List.range' 1 (window.Panes.length - 1)).map
      (fun k => (splitStep window k).1))
      = ⟨((window.Panes.length - 1 : Nat) : Int), window.Panes.length⟩ := by
    rw [hs2]
    by_cases h : window.Panes.length - 1 = 0
    · simp only [h, if_true]
      congr 1
      omega
    · simp only [h, if_false]
      congr 1
      · congr 1
        omega
      · omega
  obtain ⟨hw1, hw2⟩ := focusLog_rewind ((window.Panes.length - 1 : Nat) : Int)
    window.Panes.length (window.Panes.length - 1)
  have hw2' : Focus.after ⟨((window.Panes.length - 1 : Nat) : Int), window.Panes.length⟩
      (List.replicate (window.Panes.length - 1) Call.gotoPreviousSplit)
      = ⟨0, window.Panes.length⟩ := by
    rw [hw2]
    congr 1
    omega
  obtain ⟨hd1, hd2⟩ := focusLog_dispatch window window.Panes.length window.Panes.length
  have hinit : Focus.init = ⟨0, 1⟩ := rfl
  unfold windowCalls
  simp only [focusLog_append, Focus.after_append, hr1, hr2]
  rw [hinit]
  simp only [hs1, hs2', hw1, hw2', hd1, hd2]
  refine ⟨?_, ?_⟩
  · congr 2
    apply List.map_congr_left
    intro j _
    congr 1
    omega
  · congr 1
    omega

theorem paneLog_cursor (window : WindowConfig) (i : Nat) (x : Int × Call)
    (hx : x ∈ paneLog window i) : (i : Int) - 1 ≤ x.1 ∧ x.1 ≤ (i : Int) ∧ 0 ≤ x.1 := by
  unfold paneLog at hx
  simp only [List.mem_append, List.mem_map] at hx
  rcases hx with hx | ⟨t, _, rfl⟩
  · split at hx
    · simp at hx
      rcases hx with rfl | rfl <;> (dsimp only; omega)
    · simp at hx
  · simp

/-- C10: with the focus modelled as a cursor over the panes in creation order
(one pane focused at the start, a split creates and focuses the next pane,
navigate-previous and navigate-next move by one), a run of `CreateWindow` that
returns no error on a window of `N >= 1` panes has this focus log: the root
texts on pane 0; the splits leaving the cursor on panes `1, ..., N-1` in turn
(so on `N-1` after the last split); the rewind leaving it on
`N-2, ..., 0` in turn (so on 0 after the rewind); then for each pane
`i = 0, ..., N-1` in order, one navigate-next onto `i` when `i > 0`, and all
the texts of pane `i` (its cd and its commands) with the cursor on `i`.  The
cursor is in `[0, N)` after every call and the run ends on pane `N-1` with
`N` panes. -/
theorem CreateWindow_focus (as : Backend) (window : WindowConfig)
    (hN : 1 ≤ window.Panes.length) (hok : (CreateWindow as window).1 = none) :
    focusLog Focus.init (CreateWindow as window).2
        = (rootCalls window).map (fun c => ((0 : Int), c))
          ++ (List.range' 1 (window.Panes.length - 1)).map
              (fun (k : Nat) => ((k : Int),
                if (NewStrategy window.Layout (window.Panes.length : Int)).NextSplit (k : Int)
                    = "horizontal"
                then Call.splitHorizontal else Call.splitVertical))
          ++ (List.range (window.Panes.length - 1)).map
              (fun (j : Nat) => ((window.Panes.length : Int) - 2 - (j : Int),
                Call.gotoPreviousSplit))
          ++ (List.range window.Panes.length).flatMap (fun (i : Nat) =>
              (if i > 0 then [((i : Int) - 1, Call.activateGhostty),
                  ((i : Int), Call.gotoNextSplit)] else [])
                ++ (paneTexts window i).map (fun t => ((i : Int), Call.typeText t))) ∧
      (∀ x ∈ focusLog Focus.init (CreateWindow as window).2,
        0 ≤ x.1 ∧ x.1 < (window.Panes.length : Int)) ∧
      Focus.init.after (CreateWindow as window).2
        = ⟨(window.Panes.length : Int) - 1, window.Panes.length⟩ := by
  rw [CreateWindow_calls_of_ok as window hok]
  obtain ⟨hlog, hafter⟩ := windowCalls_focusLog window hN
  refine ⟨?_, ?_, hafter⟩
  · rw [hlog]
    congr 1
    congr 2
    apply List.map_congr_left
    intro k _
    rw [splitStep_fst]
  · intro x hx
    rw [hlog] at hx
    simp only [List.mem_append, List.mem_map, List.mem_flatMap, List.mem_range,
      List.mem_range'_1] at hx
    rcases hx with ((⟨c, _, rfl⟩ | ⟨k, hk, rfl⟩) | ⟨j, hj, rfl⟩) | ⟨i, hi, hx⟩
    · simp only
      omega
    · simp only
      omega
    · simp only
      omega
    · have := paneLog_cursor window i x hx
      omega

theorem CreateWindow_focus_witness :
    focusLog Focus.init (CreateWindow Backend.noFail rootedWindow).2
        = (rootCalls rootedWindow).map (fun c => ((0 : Int), c))
          ++ (List.range' 1 (rootedWindow.Panes.length - 1)).map
              (fun (k : Nat) => ((k : Int),
                if (NewStrategy rootedWindow.Layout
                    (rootedWindow.Panes.length : Int)).NextSplit (k : Int) = "horizontal"
                then Call.splitHorizontal else Call.splitVertical))
          ++ (List.range (rootedWindow.Panes.length - 1)).map
              (fun (j : Nat) => ((rootedWindow.Panes.length : Int) - 2 - (j : Int),
                Call.gotoPreviousSplit))
          ++ (List.range rootedWindow.Panes.length).flatMap (fun (i : Nat) =>
              (if i > 0 then [((i : Int) - 1, Call.activateGhostty),
                  ((i : Int), Call.gotoNextSplit)] else [])
                ++ (paneTexts rootedWindow i).map (fun t => ((i : Int), Call.typeText t))) ∧
      (∀ x ∈ focusLog Focus.init (CreateWindow Backend.noFail rootedWindow).2,
        0 ≤ x.1 ∧ x.1 < (rootedWindow.Panes.length : Int)) ∧
      Focus.init.after (CreateWindow Backend.noFail rootedWindow).2
        = ⟨(rootedWindow.Panes.length : Int) - 1, rootedWindow.Panes.length⟩ :=
  CreateWindow_focus Backend.noFail rootedWindow (by decide) (by decide)

/-! ## The last pane to receive a text -/

theorem filter_flatMap_logs (f : Nat → List (Int × Call)) (p : Int × Call → Bool)
    (l : List Nat) :
    (l.flatMap f).filter p = l.flatMap (fun i => (f i).filter p) := by
  induction l with
  | nil => rfl
  | cons a l ih => simp only [List.flatMap_cons, List.filter_append, ih]

theorem paneLog_filter_isText (window : WindowConfig) (i : Nat) :
    (paneLog window i).filter (fun x => x.2.isText)
      = (paneTexts window i).map (fun t => ((i : Int), Call.typeText t)) := by
  unfold paneLog
  rw [List.filter_append]
  have h1 : (if i > 0 then [((i : Int) - 1, Call.activateGhostty),
      ((i : Int), Call.gotoNextSplit)] else []).filter (fun x => x.2.isText) = [] := by
    split <;> simp [Call.isText]
  have h2 : ((paneTexts window i).map (fun t => ((i : Int), Call.typeText t))).filter
      (fun x => x.2.isText) = (paneTexts window i).map (fun t => ((i : Int), Call.typeText t)) := by
    rw [List.filter_eq_self]
    intro x hx
    simp only [List.mem_map] at hx
    obtain ⟨t, _, rfl⟩ := hx
    rfl
  rw [h1, h2, List.nil_append]

theorem windowCalls_textLog (window : WindowConfig) (hN : 1 ≤ window.Panes.length) :
    (focusLog Focus.init (windowCalls window)).filter (fun x => x.2.isText)
      = (rootCalls window).map (fun c => ((0 : Int), c))
        ++ (List.range window.Panes.length).flatMap (fun i =>
            (paneTexts window i).map (fun t => ((i : Int), Call.typeText t))) := by
  rw [(windowCalls_focusLog window hN).1]
  simp only [List.filter_append]
  have h1 : ((rootCalls window).map (fun c => ((0 : Int), c))).filter (fun x => x.2.isText)
      = (rootCalls window).map (fun c => ((0 : Int), c)) := by
    rw [List.filter_eq_self]
    intro x hx
    simp only [List.mem_map] at hx
    obtain ⟨c, hc, rfl⟩ := hx
    exact rootCalls_isText window c hc
  have h2 : ((List.range' 1 (window.Panes.length - 1)).map
      (fun (k : Nat) => ((k : Int), (splitStep window k).1))).filter (fun x => x.2.isText)
      = [] := by
    rw [List.filter_eq_nil_iff]
    intro x hx
    simp only [List.mem_map] at hx
    obtain ⟨k, _, rfl⟩ := hx
    have := splitStep_isSplit window k
    revert this
    cases (splitStep window k).1 <;> simp [Call.isSplit, Call.isText]
  have h3 : ((List.range (window.Panes.length - 1)).map
      (fun (j : Nat) => ((window.Panes.length : Int) - 2 - (j : Int),
        Call.gotoPreviousSplit))).filter (fun x => x.2.isText) = [] := by
    rw [List.filter_eq_nil_iff]
    intro x hx
    simp only [List.mem_map] at hx
    obtain ⟨k, _, rfl⟩ := hx
    simp [Call.isText]
  rw [h1, h2, h3, filter_flatMap_logs]
  simp only [paneLog_filter_isText, List.append_nil]

theorem flatMap_range_trailing_nil {α : Type} (g : Nat → List α) (m d : Nat)
    (h : ∀ j, m < j → j < m + 1 + d → g j = []) :
    (List.range (m + 1 + d)).flatMap g = (List.range m).flatMap g ++ g m := by
  induction d with
  | zero => simp [List.range_succ, List.flatMap_append]
  | succ d ih =>
    have hlast : g (m + 1 + d) = [] := h _ (by omega) (by omega)
    rw [show m + 1 + (d + 1) = (m + 1 + d) + 1 from rfl, List.range_succ,
      List.flatMap_append, ih (fun j h1 h2 => h j h1 (by omega))]
    simp [hlast]

theorem paneTexts_eq_nil_iff (window : WindowConfig) (i : Nat) :
    paneTexts window i = [] ↔
      ((window.Panes.getD i .rawNil).Commands = [] ∧
        ¬ (i ≠ 0 ∧ paneRoot window (window.Panes.getD i .rawNil) ≠ "")) := by
  unfold paneTexts
  by_cases h : paneRoot window (window.Panes.getD i .rawNil) ≠ "" ∧ i ≠ 0
  · rw [if_pos h]
    constructor
    · intro hc
      cases hc
    · rintro ⟨_, h2⟩
      exact absurd ⟨h.2, h.1⟩ h2
  · rw [if_neg h]
    simp only [List.nil_append, ne_eq]
    constructor
    · intro hc
      exact ⟨hc, fun hh => h ⟨hh.2, hh.1⟩⟩
    · exact fun hh => hh.1

theorem textLog_last_of_highest (window : WindowConfig) (m : Nat)
    (hm : m < window.Panes.length)
    (hne : (window.Panes.getD m .rawNil).Commands ≠ [] ∨
      (m ≠ 0 ∧ paneRoot window (window.Panes.getD m .rawNil) ≠ ""))
    (hlast : ∀ j, m < j → j < window.Panes.length →
      (window.Panes.getD j .rawNil).Commands = [] ∧
        paneRoot window (window.Panes.getD j .rawNil) = "") :
    (((focusLog Focus.init (windowCalls window)).filter
        (fun x => x.2.isText)).getLast?).map Prod.fst = some (m : Int) := by
  rw [windowCalls_textLog window (by omega)]
  obtain ⟨d, hd⟩ : ∃ d, window.Panes.length = m + 1 + d :=
    ⟨window.Panes.length - (m + 1), by omega⟩
  have hnil : ∀ j, m < j → j < m + 1 + d →
      (paneTexts window j).map (fun t => ((j : Int), Call.typeText t)) = [] := by
    intro j h1 h2
    have := hlast j h1 (by omega)
    rw [List.map_eq_nil_iff, paneTexts_eq_nil_iff]
    exact ⟨this.1, fun hh => hh.2 this.2⟩
  have hmne : paneTexts window m ≠ [] := by
    rw [ne_eq, paneTexts_eq_nil_iff]
    rintro ⟨h1, h2⟩
    rcases hne with h | h
    · exact h h1
    · exact h2 h
  rw [hd, flatMap_range_trailing_nil _ m d hnil, ← List.append_assoc, List.getLast?_append]
  obtain ⟨t, ht⟩ : ∃ t, (paneTexts window m).getLast? = some t := by
    cases hg : (paneTexts window m).getLast? with
    | none => exact absurd (List.getLast?_eq_none_iff.1 hg) hmne
    | some t => exact ⟨t, rfl⟩
  simp [List.getLast?_map, ht]

theorem exists_highest_dispatch_pane (window : WindowConfig)
    (hcmd : ∃ i, i < window.Panes.length ∧ (window.Panes.getD i .rawNil).Commands ≠ []) :
    ∃ m, m < window.Panes.length ∧
      ((window.Panes.getD m .rawNil).Commands ≠ [] ∨
        (m ≠ 0 ∧ paneRoot window (window.Panes.getD m .rawNil) ≠ "")) ∧
      (∀ j, m < j → j < window.Panes.length →
        (window.Panes.getD j .rawNil).Commands = [] ∧
          paneRoot window (window.Panes.getD j .rawNil) = "") := by
  classical
  obtain ⟨i, hi, hci⟩ := hcmd
  let Q : Nat → Prop := fun j => j < window.Panes.length ∧
    ((window.Panes.getD j .rawNil).Commands ≠ [] ∨
      (j ≠ 0 ∧ paneRoot window (window.Panes.getD j .rawNil) ≠ ""))
  have hQi : Q i := ⟨hi, Or.inl hci⟩
  have hspec : Q (Nat.findGreatest Q window.Panes.length) :=
    Nat.findGreatest_spec (Nat.le_of_lt hi) hQi
  refine ⟨Nat.findGreatest Q window.Panes.length, hspec.1, hspec.2, ?_⟩
  intro j h1 h2
  have hnot : ¬ Q j := Nat.findGreatest_is_greatest h1 (Nat.le_of_lt h2)
  have hj0 : j ≠ 0 := by omega
  constructor
  · by_contra hc
    exact hnot ⟨h2, Or.inl hc⟩
  · by_contra hr
    exact hnot ⟨h2, Or.inr ⟨hj0, hr⟩⟩

/-- C2, as the code has it: for a window in which at least one pane has a
non-empty command list, in a run of `CreateWindow` that returns no error
there is a highest-index pane `m` that has a non-empty command list or, being
past pane 0, a non-empty effective root (such a pane is sent "cd root" even
if it has no command), and `m` is the last pane to receive a text. -/
theorem CreateWindow_last_text_pane (as : Backend) (window : WindowConfig)
    (hok : (CreateWindow as window).1 = none)
    (hcmd : ∃ i, i < window.Panes.length ∧ (window.Panes.getD i .rawNil).Commands ≠ []) :
    ∃ m, m < window.Panes.length ∧
      ((window.Panes.getD m .rawNil).Commands ≠ [] ∨
        (m ≠ 0 ∧ paneRoot window (window.Panes.getD m .rawNil) ≠ "")) ∧
      (∀ j, m < j → j < window.Panes.length →
        (window.Panes.getD j .rawNil).Commands = [] ∧
          paneRoot window (window.Panes.getD j .rawNil) = "") ∧
      (((focusLog Focus.init (CreateWindow as window).2).filter
          (fun x => x.2.isText)).getLast?).map Prod.fst = some (m : Int) := by
  obtain ⟨m, hm, hne, hlast⟩ := exists_highest_dispatch_pane window hcmd
  refine ⟨m, hm, hne, hlast, ?_⟩
  rw [CreateWindow_calls_of_ok as window hok]
  exact textLog_last_of_highest window m hm hne hlast

theorem CreateWindow_last_text_pane_witness :
    (∃ m, m < mixedTailWindow.Panes.length ∧
      ((mixedTailWindow.Panes.getD m .rawNil).Commands ≠ [] ∨
        (m ≠ 0 ∧ paneRoot mixedTailWindow (mixedTailWindow.Panes.getD m .rawNil) ≠ "")) ∧
      (∀ j, m < j → j < mixedTailWindow.Panes.length →
        (mixedTailWindow.Panes.getD j .rawNil).Commands = [] ∧
          paneRoot mixedTailWindow (mixedTailWindow.Panes.getD j .rawNil) = "") ∧
      (((focusLog Focus.init (CreateWindow Backend.noFail mixedTailWindow).2).filter
          (fun x => x.2.isText)).getLast?).map Prod.fst = some (m : Int)) ∧
    ((focusLog Focus.init (CreateWindow Backend.noFail mixedTailWindow).2).filter
        (fun x => x.2.isText)).getLast? = some (1, Call.typeText "cd /tmp") :=
  ⟨CreateWindow_last_text_pane Backend.noFail mixedTailWindow (by decide)
      ⟨0, by decide, by decide⟩,
    by decide⟩

/-- C2 as stated fails: in `trailingRootWindow` pane 0 is the highest-index
pane with a non-empty command list, yet the last text, "cd /tmp", is sent to
pane 1, whose command list is empty. -/
theorem last_text_after_last_command_pane :
    (CreateWindow Backend.noFail trailingRootWindow).1 = none ∧
    (trailingRootWindow.Panes.getD 0 .rawNil).Commands = ["ls"] ∧
    (trailingRootWindow.Panes.getD 1 .rawNil).Commands = [] ∧
    trailingRootWindow.Panes.length = 2 ∧
    ((focusLog Focus.init (CreateWindow Backend.noFail trailingRootWindow).2).filter
        (fun x => x.2.isText)).getLast? = some (1, Call.typeText "cd /tmp") := by
  decide

end Ghostmux
